/-
Verification of the core authentication / entitlement engine of the `sso`
repository (Go).  The repository holds several revisions of the service
layer side by side; the two that matter here are

  * `src/internal/services/auth/auth.go` — the revision whose `Login`
    checks the entitlement flag before issuing a token and which carries
    `AccessControl`; embedded below in namespace `AuthAC`;
  * `src/unnamed/part_002` — the revision whose `Login` auto-creates a
    missing entitlement row and which carries `Logout`; embedded below in
    namespace `AuthLG`.

The storage layer (`src/unnamed/part_000`, package sqlite), the token
codec (`src/unnamed/part_007`, package jwt), the gRPC access-control
handlers (`src/unnamed/part_005`, second revision) and the login rate
limiter (`src/internal/app/grpc/ratelimit.go`, first revision) are
embedded as well.  External collaborators (bcrypt, the SQLite engine,
Redis) are modelled at the granularity of their observable contract, as
documented on each definition.
-/
import Mathlib

set_option autoImplicit false

namespace SSO

/-- Sentinel errors of `internal/storage/storage.go` (`ErrUserExists`,
`ErrUserNotFound`, `ErrAppNotFound`, `ErrUserAppNotFound`,
`ErrUserAppExists`), plus `execFailure` for a database/sql statement
execution that fails for any reason other than a unique-constraint
violation — for instance an argument-count mismatch between the prepared
statement and the arguments supplied to `Exec`. -/
inductive StorageErr where
  | userExists
  | userNotFound
  | appNotFound
  | userAppNotFound
  | userAppExists
  | execFailure
deriving DecidableEq, Repr

/-- Error kinds observable from the service layer.  Wrapping with
`fmt.Errorf("%s: %w", op, err)` preserves the sentinel for `errors.Is`,
so an error value is modelled by the innermost sentinel it wraps:
the service sentinels `ErrInvalidCredentials`, `ErrUserAppNotEnabled`
(= AccessDenied), `ErrAppNotFound` (service level, part_002 only), the
jwt sentinels `ErrTokenExpired` / `ErrTokenInvalid`, and `store e` for a
propagated storage error. -/
inductive Err where
  | invalidCredentials
  | userAppNotEnabled
  | appNotFoundSvc
  | tokenExpired
  | tokenInvalid
  | store (e : StorageErr)
deriving DecidableEq, Repr

/-- `errors.Is(err, s)` against a storage sentinel `s`. -/
def Err.isStore : Err → StorageErr → Bool
  | .store e, s => e == s
  | _, _ => false

/-- `models.User`: id, unique email, bcrypt digest of the password. -/
structure User where
  id : Int
  email : String
  passHash : String
deriving DecidableEq, Repr

/-- `models.App`: id, public code, signing secret. -/
structure App where
  id : Int
  code : String
  secret : String
deriving DecidableEq, Repr

/-- `models.UserApp`: the entitlement row for a (user, app) pair. -/
structure UserApp where
  userID : Int
  appID : Int
  isEnabled : Bool
deriving DecidableEq, Repr

/-- Model of `bcrypt.GenerateFromPassword`: the digest is modelled by the
password itself (salting and one-wayness are abstracted away; all the
engine ever does with a digest is verify a password against it). -/
def bcryptGenerateFromPassword (password : String) : String :=
  password

/-- Model of `bcrypt.CompareHashAndPassword` returning nil: the
comparison succeeds exactly when the digest was generated from the
submitted password. -/
def bcryptCompareOK (passHash password : String) : Bool :=
  passHash == password

/-- The SQLite database state: the `users`, `apps` and `user_app` tables
plus the autoincrement counter behind `LastInsertId` for `users`. -/
structure DB where
  users : List User
  apps : List App
  userApps : List UserApp
  nextUserID : Int
deriving DecidableEq, Repr

/-- `SELECT ... FROM users WHERE email = ?` (first matching row). -/
def findUserRow : List User → String → Option User
  | [], _ => none
  | u :: us, email => if u.email = email then some u else findUserRow us email

/-- `SELECT ... FROM apps WHERE code = ?` (first matching row). -/
def findAppRow : List App → String → Option App
  | [], _ => none
  | a :: rest, code => if a.code = code then some a else findAppRow rest code

/-- `SELECT ... FROM user_app WHERE user_id = ? AND app_id = ?`. -/
def findUserAppRow : List UserApp → Int → Int → Option UserApp
  | [], _, _ => none
  | r :: rs, uid, aid =>
    if r.userID = uid ∧ r.appID = aid then some r else findUserAppRow rs uid aid

/-- `UPDATE user_app SET is_enabled = ? WHERE user_id = ? AND app_id = ?`:
every matching row gets the new flag. -/
def setEnabled : List UserApp → Int → Int → Bool → List UserApp
  | [], _, _, _ => []
  | r :: rs, uid, aid, v =>
    (if r.userID = uid ∧ r.appID = aid then { r with isEnabled := v } else r)
      :: setEnabled rs uid aid v

/-- Rows matched by the update above (`RowsAffected`). -/
def countUserAppRows : List UserApp → Int → Int → Nat
  | [], _, _ => 0
  | r :: rs, uid, aid =>
    (if r.userID = uid ∧ r.appID = aid then 1 else 0) + countUserAppRows rs uid aid

namespace Storage

/-- An argument bound to a prepared statement through database/sql.  The
`goCtx` constructor records that `Storage.SaveUserApp` passes the Go
context itself as an SQL argument (it calls `Exec(ctx, ...)` instead of
`ExecContext(ctx, ...)`). -/
inductive SqlArg where
  | goCtx
  | int (i : Int)
  | bool (b : Bool)
  | str (s : String)
  | bytes (s : String)
deriving DecidableEq, Repr

/-- Executing `userInsertStmt`, prepared in `storage.sqlite.New` as
`INSERT INTO users(email, pass_hash) VALUES(?, ?)`.  database/sql
accepts exactly one string-like argument per placeholder; any other
argument list fails before reaching the database, which surfaces as a
generic (non-unique-constraint) error.  A well-formed insert is subject
to the unique constraint on `email`. -/
def execUserInsert (db : DB) (args : List SqlArg) : Except StorageErr Int × DB :=
  match args with
  | [.str email, .bytes passHash] =>
    match findUserRow db.users email with
    | some _ => (.error .userExists, db)
    | none =>
      (.ok db.nextUserID,
       { db with
         users := db.users ++ [⟨db.nextUserID, email, passHash⟩],
         nextUserID := db.nextUserID + 1 })
  | _ => (.error .execFailure, db)

/-- `Storage.SaveUser` (part_000 lines 124–157): inserts through
`userInsertStmt`; a unique-constraint violation is mapped to
`ErrUserExists`. -/
def SaveUser (db : DB) (email passHash : String) : Except StorageErr Int × DB :=
  execUserInsert db [.str email, .bytes passHash]

/-- `Storage.SaveUserApp` (part_000 lines 251–290) **as written**: it
executes `s.userInsertStmt.Exec(ctx, userID, appID, isEnabled)` — the
users-table insert statement, with four arguments of which the first is
the context — although `userAppInsertStmt` was prepared for this
purpose.  The execution therefore always fails with a generic error,
never with the unique-constraint error that is mapped to
`ErrUserAppExists`. -/
def SaveUserApp (db : DB) (userID : Int) (appID : Int) (isEnabled : Bool) :
    Except StorageErr Int × DB :=
  execUserInsert db [.goCtx, .int userID, .int appID, .bool isEnabled]

/-- `Storage.User` (part_000 lines 159–187). -/
def User (db : DB) (email : String) : Except StorageErr SSO.User :=
  match findUserRow db.users email with
  | some u => .ok u
  | none => .error .userNotFound

/-- `Storage.App` (part_000 lines 189–217). -/
def App (db : DB) (appCode : String) : Except StorageErr SSO.App :=
  match findAppRow db.apps appCode with
  | some a => .ok a
  | none => .error .appNotFound

/-- `Storage.UserApp` (part_000 lines 219–249): a missing row is
reported as `ErrUserAppNotFound`. -/
def UserApp (db : DB) (userID appID : Int) : Except StorageErr SSO.UserApp :=
  match findUserAppRow db.userApps userID appID with
  | some r => .ok r
  | none => .error .userAppNotFound

/-- `Storage.UpdateUserApp` (part_000 lines 292–327): runs the update,
then reports `ErrUserAppNotFound` when `RowsAffected` is zero. -/
def UpdateUserApp (db : DB) (userID appID : Int) (isEnabled : Bool) :
    Except StorageErr Unit × DB :=
  if countUserAppRows db.userApps userID appID = 0 then
    (.error .userAppNotFound, db)
  else
    (.ok (), { db with userApps := setEnabled db.userApps userID appID isEnabled })

end Storage

namespace jwt

/-- The claim set signed into a token by `jwt.NewToken` (part_007 lines
17–32): uid, email, exp and app_code.  The HMAC-SHA256 signature is
modelled by recording the signing secret; verification against a secret
succeeds exactly when the secrets coincide. -/
structure Token where
  uid : Int
  email : String
  exp : Int
  appCode : String
  secret : String
deriving DecidableEq, Repr

/-- `jwt.NewToken` at issuance instant `now`: `exp = now + duration`. -/
def NewToken (user : SSO.User) (app : SSO.App) (now ttl : Int) : Token :=
  { uid := user.id
    email := user.email
    exp := now + ttl
    appCode := app.code
    secret := app.secret }

/-- `jwt.ValidateToken` (part_007 lines 34–71) at validation instant
`now`.  The `jwt.Parse` call (golang-jwt v5.0.0) verifies the signature
**and validates the registered claims by default**: the `exp` validation
succeeds only when `now` is strictly before `exp` (zero leeway).  Any
`Parse` failure — a bad signature or a failed exp validation — is
wrapped at line 43 as the package-local `ErrTokenInvalid`; the library's
own expired sentinel is a different value from the local
`ErrTokenExpired`, so expiry surfaces as `tokenInvalid` to every
`errors.Is` check in this repository.  The local expiry check at line 66
(`time.Now().After(expTime)` → `ErrTokenExpired`) runs only after a
successful `Parse`, whose validation already guaranteed `now < exp`, so
at a single validation instant that branch is unreachable; it is
embedded faithfully below.  On success the email claim is returned. -/
def ValidateToken (token : Token) (secretApp : String) (now : Int) : Except Err String :=
  if token.secret ≠ secretApp then .error .tokenInvalid
  else if ¬ now < token.exp then .error .tokenInvalid
  else if now > token.exp then .error .tokenExpired
  else .ok token.email

end jwt

/-- `getUser` — textually identical in both service revisions (auth.go
lines 228–246, part_002 lines 245–264): `ErrUserNotFound` from the store
is mapped to `ErrInvalidCredentials`; any other store error propagates
wrapped. -/
def getUser (db : DB) (email : String) : Except Err User :=
  match Storage.User db email with
  | .ok u => .ok u
  | .error e => if e = .userNotFound then .error .invalidCredentials else .error (.store e)

/-- `getUserApp` — identical logic in both revisions (auth.go lines
264–284, part_002 lines 286–305): the not-found branch tests
`errors.Is(err, storage.ErrAppNotFound)`, but `Storage.UserApp` reports
a missing row as `ErrUserAppNotFound`, so the mapping to
`ErrUserAppNotEnabled` never fires and the missing-row error propagates
wrapped. -/
def getUserApp (db : DB) (userID appID : Int) : Except Err UserApp :=
  match Storage.UserApp db userID appID with
  | .ok ua => .ok ua
  | .error e => if e = .appNotFound then .error .userAppNotEnabled else .error (.store e)

/-- `saveUserApp` — identical in both revisions: delegates to
`Storage.SaveUserApp`, discarding the id. -/
def saveUserApp (db : DB) (userID appID : Int) (isEnabled : Bool) :
    Except StorageErr Unit × DB :=
  let r := Storage.SaveUserApp db userID appID isEnabled
  (match r.1 with
   | .ok _ => .ok ()
   | .error e => .error e, r.2)

/-- `isAccessAllowed` — identical in both revisions (auth.go lines
304–323, part_002 lines 325–344): fetch the entitlement row and require
`IsEnabled`, failing with `ErrUserAppNotEnabled` otherwise. -/
def isAccessAllowed (db : DB) (userID appID : Int) : Except Err Unit :=
  match getUserApp db userID appID with
  | .error e => .error e
  | .ok ua => if ua.isEnabled then .ok () else .error .userAppNotEnabled

/-! ## The service revision with `AccessControl`
    (`src/internal/services/auth/auth.go`) -/

namespace AuthAC

/-- `getApp` (auth.go lines 248–262): every store error propagates
wrapped, including `ErrAppNotFound`. -/
def getApp (db : DB) (appCode : String) : Except Err App :=
  match Storage.App db appCode with
  | .ok a => .ok a
  | .error e => .error (.store e)

/-- `Auth.RegisterNewUser` (auth.go lines 80–104): hash the password,
persist the user; every store error propagates wrapped (in particular
`ErrUserExists` on a duplicate email). -/
def RegisterNewUser (db : DB) (email password : String) : Except Err Int × DB :=
  let passHash := bcryptGenerateFromPassword password
  let r := Storage.SaveUser db email passHash
  (match r.1 with
   | .ok id => .ok id
   | .error e => .error (.store e), r.2)

/-- `Auth.Login` (auth.go lines 106–146): resolve the user, verify the
password, resolve the app, require an enabled entitlement via
`isAccessAllowed`, then issue a token.  Write-free.  The token is issued
at instant `now` with time-to-live `ttl`; token generation itself is
modelled as total. -/
def Login (db : DB) (email password appCode : String) (now ttl : Int) :
    Except Err jwt.Token :=
  match getUser db email with
  | .error e => .error e
  | .ok user =>
    if ¬ bcryptCompareOK user.passHash password then .error .invalidCredentials
    else
      match getApp db appCode with
      | .error e => .error e
      | .ok app =>
        match isAccessAllowed db user.id app.id with
        | .error e => .error e
        | .ok _ => .ok (jwt.NewToken user app now ttl)

/-- `Auth.ValidateToken` (auth.go lines 148–182): resolve the app,
verify/decode the token, resolve the user by the email claim, then
check the entitlement — the source calls `isAccessAllowed` twice in a
row (lines 171–179); both calls are embedded.  Write-free. -/
def ValidateToken (db : DB) (token : jwt.Token) (appCode : String) (now : Int) :
    Except Err String :=
  match getApp db appCode with
  | .error e => .error e
  | .ok app =>
    match jwt.ValidateToken token app.secret now with
    | .error e => .error e
    | .ok email =>
      match getUser db email with
      | .error e => .error e
      | .ok user =>
        match isAccessAllowed db user.id app.id with
        | .error e => .error e
        | .ok _ =>
          match isAccessAllowed db user.id app.id with
          | .error e => .error e
          | .ok _ => .ok email

/-- `Auth.AccessControl` (auth.go lines 184–226): resolve user and app;
if the entitlement row is missing (`errors.Is(err, ErrUserAppNotFound)`)
create it with the desired flag through `Storage.SaveUserApp`, otherwise
update the existing row; return the app code on success. -/
def AccessControl (db : DB) (email appCode : String) (isEnabled : Bool) :
    Except Err String × DB :=
  match getUser db email with
  | .error e => (.error e, db)
  | .ok user =>
    match getApp db appCode with
    | .error e => (.error e, db)
    | .ok app =>
      match getUserApp db user.id app.id with
      | .error e =>
        if e.isStore .userAppNotFound then
          let r := saveUserApp db user.id app.id isEnabled
          match r.1 with
          | .ok _ => (.ok app.code, r.2)
          | .error se => (.error (.store se), r.2)
        else (.error e, db)
      | .ok userApp =>
        let r := Storage.UpdateUserApp db userApp.userID userApp.appID isEnabled
        match r.1 with
        | .ok _ => (.ok app.code, r.2)
        | .error se => (.error (.store se), r.2)

end AuthAC

/-! ## The service revision with `Logout`
    (`src/unnamed/part_002`) -/

namespace AuthLG

/-- `getApp` (part_002 lines 266–284): `ErrAppNotFound` from the store
is mapped to the service-level `ErrAppNotFound` sentinel; other store
errors propagate wrapped. -/
def getApp (db : DB) (appCode : String) : Except Err App :=
  match Storage.App db appCode with
  | .ok a => .ok a
  | .error e => if e = .appNotFound then .error .appNotFoundSvc else .error (.store e)

/-- `Auth.Login` (part_002 lines 111–170): resolve the user, verify the
password, resolve the app; if the entitlement row is missing, create it
with `enabled = true`, absorbing `ErrUserAppExists` from a concurrent
creator; then issue a token.  The enabled flag of an existing row is
**not** consulted. -/
def Login (db : DB) (email password appCode : String) (now ttl : Int) :
    Except Err jwt.Token × DB :=
  match getUser db email with
  | .error e => (.error e, db)
  | .ok user =>
    if ¬ bcryptCompareOK user.passHash password then (.error .invalidCredentials, db)
    else
      match getApp db appCode with
      | .error e => (.error e, db)
      | .ok app =>
        match getUserApp db user.id app.id with
        | .ok _ => (.ok (jwt.NewToken user app now ttl), db)
        | .error e =>
          if e.isStore .userAppNotFound then
            let r := saveUserApp db user.id app.id true
            match r.1 with
            | .ok _ => (.ok (jwt.NewToken user app now ttl), r.2)
            | .error se =>
              if se = .userAppExists then (.ok (jwt.NewToken user app now ttl), r.2)
              else (.error (.store se), r.2)
          else (.error e, db)

/-- `Auth.Logout` (part_002 lines 172–207): resolve user and app, fetch
the entitlement row, and set its `enabled` flag to false through
`Storage.UpdateUserApp`.  The token handed to the client is untouched. -/
def Logout (db : DB) (email appCode : String) : Except Err Bool × DB :=
  match getUser db email with
  | .error e => (.error e, db)
  | .ok user =>
    match getApp db appCode with
    | .error e => (.error e, db)
    | .ok app =>
      match getUserApp db user.id app.id with
      | .error e => (.error e, db)
      | .ok userApp =>
        let r := Storage.UpdateUserApp db userApp.userID userApp.appID false
        match r.1 with
        | .ok _ => (.ok true, r.2)
        | .error se => (.error (.store se), r.2)

/-- `Auth.ValidateToken` (part_002 lines 209–243): resolve the app,
verify/decode the token, resolve the user by the email claim, then
require the entitlement to be enabled via `isAccessAllowed`.
Write-free. -/
def ValidateToken (db : DB) (token : jwt.Token) (appCode : String) (now : Int) :
    Except Err String :=
  match getApp db appCode with
  | .error e => .error e
  | .ok app =>
    match jwt.ValidateToken token app.secret now with
    | .error e => .error e
    | .ok email =>
      match getUser db email with
      | .error e => .error e
      | .ok user =>
        match isAccessAllowed db user.id app.id with
        | .error e => .error e
        | .ok _ => .ok email

end AuthLG

/-! ## The gRPC access-control handlers
    (`src/unnamed/part_005`, second revision, lines 324–370) -/

namespace serverAPI

/-- gRPC status codes used by the embedded handlers. -/
inductive GrpcCode where
  | invalidArgument
  | alreadyExists
  | unauthenticated
  | internalErr
  | resourceExhausted
deriving DecidableEq, Repr

/-- The response message of AllowAccess / GrantAccess / RevokeAccess:
only the app code field matters here. -/
structure AccessResp where
  appCode : String
deriving DecidableEq, Repr

/-- The Go handlers read the string returned alongside the error;
every error path of `AccessControl` returns the zero value `""`. -/
def stringOfResult : Except Err String → String
  | .ok s => s
  | .error _ => ""

/-- `serverAPI.AllowAccess` (part_005 lines 324–338): after validating
that email and app code are non-empty, calls `AccessControl(..., true)`,
**discards its error** (`if err != nil {}`), and answers with a success
response carrying whatever app code came back. -/
def AllowAccess (db : DB) (email appCode : String) : Except GrpcCode AccessResp × DB :=
  if email = "" then (.error .invalidArgument, db)
  else if appCode = "" then (.error .invalidArgument, db)
  else
    let r := AuthAC.AccessControl db email appCode true
    (.ok ⟨stringOfResult r.1⟩, r.2)

/-- `serverAPI.RevokeAccess` (part_005 lines 340–354): same shape as
`AllowAccess` with desired flag `false`; the error is discarded. -/
def RevokeAccess (db : DB) (email appCode : String) : Except GrpcCode AccessResp × DB :=
  if email = "" then (.error .invalidArgument, db)
  else if appCode = "" then (.error .invalidArgument, db)
  else
    let r := AuthAC.AccessControl db email appCode false
    (.ok ⟨stringOfResult r.1⟩, r.2)

/-- `serverAPI.GrantAccess` (part_005 lines 356–370): same shape as
`AllowAccess` (desired flag `true`); the error is discarded. -/
def GrantAccess (db : DB) (email appCode : String) : Except GrpcCode AccessResp × DB :=
  if email = "" then (.error .invalidArgument, db)
  else if appCode = "" then (.error .invalidArgument, db)
  else
    let r := AuthAC.AccessControl db email appCode true
    (.ok ⟨stringOfResult r.1⟩, r.2)

end serverAPI

/-! ## The login rate limiter
    (`src/internal/app/grpc/ratelimit.go`, first revision, lines 65–99) -/

namespace ratelimit

def grpcMethodAuthLogin : String := "/auth.Auth/Login"

/-- The Redis key prefix for per-email login counters (the source names
it redisKeyLoginPrefix). -/
def redisKeyLogin : String := "rate:login:email:"

/-- The Redis counter state within one throttle window: an association
list from key to counter value; an absent key counts as 0.  The `Expire`
call issued on the first increment only matters across windows, so a
single window is modelled and the reset at window expiry is out of
scope here. -/
structure RLState where
  counters : List (String × Int)
deriving DecidableEq, Repr

def getCounter : List (String × Int) → String → Int
  | [], _ => 0
  | p :: ps, k => if p.1 = k then p.2 else getCounter ps k

def setCounter : List (String × Int) → String → Int → List (String × Int)
  | [], k, v => [(k, v)]
  | p :: ps, k, v => if p.1 = k then (k, v) :: ps else p :: setCounter ps k v

/-- Redis `INCR`: atomically increment the counter for `key` and return
the incremented value. -/
def RLState.incr (s : RLState) (key : String) : Int × RLState :=
  let v := getCounter s.counters key + 1
  (v, ⟨setCounter s.counters key v⟩)

/-- What the interceptor did with one request: invoke the inner handler
(`proceed`, i.e. Login's own logic runs) or reject it with gRPC
`ResourceExhausted` — the spec's `ThrottleExceeded` — without invoking
the handler (`throttled`). -/
inductive RLDecision where
  | proceed
  | throttled
deriving DecidableEq, Repr

/-- The limiter configuration: `storePresent` models `l.store != nil`
(a nil backend means no throttling), `limit` the configured attempt
limit.  The window length only matters across windows. -/
structure LoginRateLimiter where
  storePresent : Bool
  limit : Int
deriving DecidableEq, Repr

/-- `LoginRateLimiter.Unary` (ratelimit.go lines 65–99) on one request:
non-Login methods, a nil backend and an empty email pass straight
through; otherwise the counter is incremented first (so rejected
attempts still count) and the request is rejected exactly when the
incremented count exceeds the limit.  (The branches for a request of an
unexpected type and for a failing `Incr` also pass through; the backend
is modelled as not failing.) -/
def LoginRateLimiter.unary (l : LoginRateLimiter) (s : RLState)
    (fullMethod email : String) : RLDecision × RLState :=
  if fullMethod ≠ grpcMethodAuthLogin ∨ l.storePresent = false then (.proceed, s)
  else if email = "" then (.proceed, s)
  else
    let r := s.incr (redisKeyLogin ++ email)
    if r.1 > l.limit then (.throttled, r.2) else (.proceed, r.2)

/-- Run `n` consecutive Login requests for the same email within one
window, starting from a fresh counter state, and tally how many
proceeded to the handler and how many were throttled. -/
def runLoginAttempts (storePresent : Bool) (limit : Int) (email : String) :
    Nat → Nat × Nat × RLState
  | 0 => (0, 0, ⟨[]⟩)
  | n + 1 =>
    let r := runLoginAttempts storePresent limit email n
    let step := LoginRateLimiter.unary ⟨storePresent, limit⟩ r.2.2 grpcMethodAuthLogin email
    if step.1 = .proceed then (r.1 + 1, r.2.1, step.2) else (r.1, r.2.1 + 1, step.2)

end ratelimit

/-! ## Supporting lemmas -/

theorem findUserAppRow_keys {l : List UserApp} {uid aid : Int} {r : UserApp}
    (h : findUserAppRow l uid aid = some r) : r.userID = uid ∧ r.appID = aid := by
  induction l with
  | nil => simp [findUserAppRow] at h
  | cons x xs ih =>
    by_cases hx : x.userID = uid ∧ x.appID = aid
    · simp [findUserAppRow, hx] at h
      subst h
      exact hx
    · simp only [findUserAppRow, if_neg hx] at h
      exact ih h

theorem findUserAppRow_setEnabled (l : List UserApp) (uid aid : Int) (v : Bool) :
    findUserAppRow (setEnabled l uid aid v) uid aid =
      (findUserAppRow l uid aid).map (fun r => { r with isEnabled := v }) := by
  induction l with
  | nil => simp [findUserAppRow, setEnabled]
  | cons x xs ih =>
    by_cases hx : x.userID = uid ∧ x.appID = aid
    · simp [findUserAppRow, setEnabled, hx]
    · simp only [setEnabled, if_neg hx, findUserAppRow]
      exact ih

theorem countUserAppRows_ne_zero {l : List UserApp} {uid aid : Int} {r : UserApp}
    (h : findUserAppRow l uid aid = some r) : countUserAppRows l uid aid ≠ 0 := by
  induction l with
  | nil => simp [findUserAppRow] at h
  | cons x xs ih =>
    by_cases hx : x.userID = uid ∧ x.appID = aid
    · simp [countUserAppRows, hx]
    · simp only [findUserAppRow, if_neg hx] at h
      simp only [countUserAppRows, if_neg hx]
      simpa using ih h

theorem findUserRow_append_of_none {l : List User} {email : String}
    (h : findUserRow l email = none) (u : User) :
    findUserRow (l ++ [u]) email = if u.email = email then some u else none := by
  induction l with
  | nil => simp [findUserRow]
  | cons x xs ih =>
    by_cases hx : x.email = email
    · simp [findUserRow, hx] at h
    · simp only [findUserRow, if_neg hx] at h
      simpa only [List.cons_append, findUserRow, if_neg hx] using ih h

theorem getUser_ok {db : DB} {email : String} {u : User}
    (h : Storage.User db email = .ok u) : getUser db email = .ok u := by
  unfold getUser
  rw [h]

theorem getUserApp_ok {db : DB} {uid aid : Int} {ua : UserApp}
    (h : Storage.UserApp db uid aid = .ok ua) : getUserApp db uid aid = .ok ua := by
  unfold getUserApp
  rw [h]

theorem storageUserApp_of_find {db : DB} {uid aid : Int} {ua : UserApp}
    (h : findUserAppRow db.userApps uid aid = some ua) :
    Storage.UserApp db uid aid = .ok ua := by
  unfold Storage.UserApp
  rw [h]

theorem storageUserApp_find_of_ok {db : DB} {uid aid : Int} {ua : UserApp}
    (h : Storage.UserApp db uid aid = .ok ua) :
    findUserAppRow db.userApps uid aid = some ua := by
  unfold Storage.UserApp at h
  cases hf : findUserAppRow db.userApps uid aid with
  | none => rw [hf] at h; cases h
  | some r => rw [hf] at h; cases h; rfl

theorem getUserApp_missing {db : DB} {uid aid : Int}
    (h : findUserAppRow db.userApps uid aid = none) :
    getUserApp db uid aid = .error (.store .userAppNotFound) := by
  unfold getUserApp Storage.UserApp
  rw [h]
  rfl

theorem getCounter_setCounter (l : List (String × Int)) (k : String) (v : Int) :
    ratelimit.getCounter (ratelimit.setCounter l k v) k = v := by
  induction l with
  | nil => simp [ratelimit.getCounter, ratelimit.setCounter]
  | cons p ps ih =>
    by_cases hp : p.1 = k
    · simp [ratelimit.setCounter, ratelimit.getCounter, hp]
    · simp [ratelimit.setCounter, ratelimit.getCounter, hp, ih]

/-- One interceptor step on a Login request with a configured backend and
a non-empty email: the counter is incremented first, and the request is
throttled exactly when the incremented count exceeds the limit. -/
theorem unary_login_step (limit : Int) (s : ratelimit.RLState) (email : String)
    (hE : ¬ email = "") :
    ratelimit.LoginRateLimiter.unary ⟨true, limit⟩ s ratelimit.grpcMethodAuthLogin email
      = (if ratelimit.getCounter s.counters (ratelimit.redisKeyLogin ++ email) + 1 > limit
           then .throttled else .proceed,
         ⟨ratelimit.setCounter s.counters (ratelimit.redisKeyLogin ++ email)
            (ratelimit.getCounter s.counters (ratelimit.redisKeyLogin ++ email) + 1)⟩) := by
  simp only [ratelimit.LoginRateLimiter.unary, ratelimit.RLState.incr]
  rw [if_neg (by simp), if_neg hE]
  by_cases h : ratelimit.getCounter s.counters (ratelimit.redisKeyLogin ++ email) + 1 > limit
  · rw [if_pos h, if_pos h]
  · rw [if_neg h, if_neg h]

/-- After `n` Login attempts for one email within one window, starting
from a fresh counter: `min n limit` proceeded, the rest were throttled,
and the counter records all `n` attempts. -/
theorem runLoginAttempts_loginSpec (limit : Int) (hL : 0 ≤ limit) (email : String)
    (hE : ¬ email = "") (n : Nat) :
    (ratelimit.runLoginAttempts true limit email n).1 = min n limit.toNat ∧
    (ratelimit.runLoginAttempts true limit email n).2.1 = n - min n limit.toNat ∧
    ratelimit.getCounter (ratelimit.runLoginAttempts true limit email n).2.2.counters
      (ratelimit.redisKeyLogin ++ email) = (n : Int) := by
  induction n with
  | zero =>
    refine ⟨by simp [ratelimit.runLoginAttempts], by simp [ratelimit.runLoginAttempts],
      by simp [ratelimit.runLoginAttempts, ratelimit.getCounter]⟩
  | succ n ih =>
    obtain ⟨ih1, ih2, ih3⟩ := ih
    simp only [ratelimit.runLoginAttempts, unary_login_step limit _ email hE, ih3]
    by_cases h : (n : Int) + 1 > limit
    · rw [if_pos h, if_neg (by decide)]
      refine ⟨?_, ?_, ?_⟩
      · simp only [ih1]
        omega
      · simp only [ih2]
        omega
      · simp only [getCounter_setCounter]
        omega
    · rw [if_neg h, if_pos rfl]
      refine ⟨?_, ?_, ?_⟩
      · simp only [ih1]
        omega
      · simp only [ih2]
        omega
      · simp only [getCounter_setCounter]
        omega

/-- Without a configured backend (`l.store == nil`) every request goes
straight through to the handler and nothing is counted. -/
theorem runLoginAttempts_noStore (limit : Int) (email : String) (n : Nat) :
    ratelimit.runLoginAttempts false limit email n = (n, 0, ⟨[]⟩) := by
  induction n with
  | zero => rfl
  | succ n ih =>
    simp [ratelimit.runLoginAttempts, ih, ratelimit.LoginRateLimiter.unary]

/-! ## Claim theorems -/

/-- Claim C1: for every user, app and pair with an existing entitlement
row, after `Logout(email, appCode)` sets the entitlement's enabled flag
to false, a token issued before the logout and still within its expiry
window (`now < exp`, the validity region under golang-jwt v5's
Parse-time expiry validation) still verifies as token bytes
(`jwt.ValidateToken` succeeds on its own), yet the full
`Auth.ValidateToken` fails with `ErrUserAppNotEnabled` (AccessDenied)
because of the entitlement re-check — the sole mechanism by which
logout takes effect. -/
theorem claim_C1_logout_disables_token_validation
    (db : DB) (user : User) (app : App) (ua : UserApp)
    (appCode : String) (t0 ttl now : Int)
    (hU : Storage.User db user.email = .ok user)
    (hA : Storage.App db appCode = .ok app)
    (hUA : Storage.UserApp db user.id app.id = .ok ua)
    (hexp : now < t0 + ttl) :
    (AuthLG.Logout db user.email appCode).1 = .ok true ∧
    jwt.ValidateToken (jwt.NewToken user app t0 ttl) app.secret now = .ok user.email ∧
    AuthLG.ValidateToken (AuthLG.Logout db user.email appCode).2
      (jwt.NewToken user app t0 ttl) appCode now = .error .userAppNotEnabled := by
  obtain ⟨hk1, hk2⟩ := findUserAppRow_keys (storageUserApp_find_of_ok hUA)
  have hgA : AuthLG.getApp db appCode = .ok app := by
    unfold AuthLG.getApp
    rw [hA]
  have hfind : findUserAppRow db.userApps ua.userID ua.appID = some ua := by
    rw [hk1, hk2]
    exact storageUserApp_find_of_ok hUA
  have hcnt : ¬ countUserAppRows db.userApps ua.userID ua.appID = 0 :=
    countUserAppRows_ne_zero hfind
  have hlogout : AuthLG.Logout db user.email appCode =
      (.ok true, { db with userApps := setEnabled db.userApps ua.userID ua.appID false }) := by
    simp only [AuthLG.Logout, getUser_ok hU, hgA, getUserApp_ok hUA,
      Storage.UpdateUserApp, if_neg hcnt]
  have hjwt : jwt.ValidateToken (jwt.NewToken user app t0 ttl) app.secret now
      = .ok user.email := by
    have h2 : ¬ now > t0 + ttl := by omega
    simp [jwt.ValidateToken, jwt.NewToken, hexp, h2]
  refine ⟨by rw [hlogout], hjwt, ?_⟩
  rw [hlogout]
  set db2 : DB := { db with userApps := setEnabled db.userApps ua.userID ua.appID false }
  have hU2 : Storage.User db2 user.email = .ok user := hU
  have hA2 : Storage.App db2 appCode = .ok app := hA
  have hgA2 : AuthLG.getApp db2 appCode = .ok app := by
    unfold AuthLG.getApp
    rw [hA2]
  have hfindB : findUserAppRow db.userApps user.id app.id = some ua := by
    rw [← hk1, ← hk2]
    exact hfind
  have hfind2 : findUserAppRow db2.userApps user.id app.id
      = some { userID := user.id, appID := app.id, isEnabled := false } := by
    show findUserAppRow (setEnabled db.userApps ua.userID ua.appID false) user.id app.id = _
    rw [hk1, hk2, findUserAppRow_setEnabled, hfindB]
    simp [hk1, hk2]
  have hUA2 : Storage.UserApp db2 user.id app.id
      = .ok { userID := user.id, appID := app.id, isEnabled := false } :=
    storageUserApp_of_find hfind2
  simp only [AuthLG.ValidateToken, hgA2, hjwt, getUser_ok hU2, isAccessAllowed,
    getUserApp_ok hUA2]
  rfl

/-- Witness for C1: one user (id 1), one app (id 7), an enabled
entitlement row; a token issued at time 0 with ttl 60 and validated at
time 30 after the logout. -/
theorem claim_C1_witness :
    (AuthLG.Logout ⟨[⟨1, "u@e", "pw"⟩], [⟨7, "app", "sec"⟩], [⟨1, 7, true⟩], 2⟩
        "u@e" "app").1 = .ok true ∧
    jwt.ValidateToken (jwt.NewToken ⟨1, "u@e", "pw"⟩ ⟨7, "app", "sec"⟩ 0 60) "sec" 30
      = .ok "u@e" ∧
    AuthLG.ValidateToken
      (AuthLG.Logout ⟨[⟨1, "u@e", "pw"⟩], [⟨7, "app", "sec"⟩], [⟨1, 7, true⟩], 2⟩
        "u@e" "app").2
      (jwt.NewToken ⟨1, "u@e", "pw"⟩ ⟨7, "app", "sec"⟩ 0 60) "app" 30
      = .error .userAppNotEnabled :=
  claim_C1_logout_disables_token_validation
    ⟨[⟨1, "u@e", "pw"⟩], [⟨7, "app", "sec"⟩], [⟨1, 7, true⟩], 2⟩
    ⟨1, "u@e", "pw"⟩ ⟨7, "app", "sec"⟩ ⟨1, 7, true⟩ "app" 0 60 30
    rfl rfl rfl (by decide)

/-- Claim C2, counterexample: in the `Login` revision at
`src/unnamed/part_002`, a login whose email and password verify and
whose (userId, appId) entitlement row exists with `enabled = false`
does **not** fail with AccessDenied — a token is issued, because that
revision never consults the enabled flag of an existing row. -/
theorem claim_C2_counterexample :
    (AuthLG.Login ⟨[⟨1, "u@e", "pw"⟩], [⟨7, "app", "sec"⟩], [⟨1, 7, false⟩], 2⟩
        "u@e" "pw" "app" 0 60).1
      = .ok ⟨1, "u@e", 60, "app", "sec"⟩ := by
  rfl

/-- Claim C2, amended: in the `Login` revision at
`src/internal/services/auth/auth.go` (the access-checked variant the
spec adopts), a login whose email resolves, whose password verifies and
whose appCode resolves fails with `ErrUserAppNotEnabled` (AccessDenied)
and no token is issued when the (userId, appId) entitlement row exists
with `enabled = false`. -/
theorem claim_C2_amended_login_denies_disabled
    (db : DB) (user : User) (app : App) (ua : UserApp)
    (email password appCode : String) (now ttl : Int)
    (hU : Storage.User db email = .ok user)
    (hP : bcryptCompareOK user.passHash password = true)
    (hA : Storage.App db appCode = .ok app)
    (hUA : Storage.UserApp db user.id app.id = .ok ua)
    (hD : ua.isEnabled = false) :
    AuthAC.Login db email password appCode now ttl = .error .userAppNotEnabled := by
  have hgA : AuthAC.getApp db appCode = .ok app := by
    unfold AuthAC.getApp
    rw [hA]
  simp only [AuthAC.Login, getUser_ok hU, hP, hgA, isAccessAllowed, getUserApp_ok hUA, hD]
  simp

/-- Witness for the amended C2: the same store state as the
counterexample, run through the access-checked revision. -/
theorem claim_C2_witness :
    AuthAC.Login ⟨[⟨1, "u@e", "pw"⟩], [⟨7, "app", "sec"⟩], [⟨1, 7, false⟩], 2⟩
        "u@e" "pw" "app" 0 60
      = .error .userAppNotEnabled :=
  claim_C2_amended_login_denies_disabled
    ⟨[⟨1, "u@e", "pw"⟩], [⟨7, "app", "sec"⟩], [⟨1, 7, false⟩], 2⟩
    ⟨1, "u@e", "pw"⟩ ⟨7, "app", "sec"⟩ ⟨1, 7, false⟩ "u@e" "pw" "app" 0 60
    rfl rfl rfl rfl rfl

/-- Claim C3 (code bug): a first `Login` for a (userId, appId) pair with
no entitlement row reaches the auto-create path, but
`Storage.SaveUserApp` executes the users-table insert statement with the
wrong arguments and always fails with a generic error — never the
uniqueness-conflict error the engine is prepared to absorb.  The overall
Login therefore fails and no row is created, where the claim (and the
engine's own conflict-absorption code, and the repository's integration
test) expect a token and exactly one row. -/
theorem claim_C3_first_login_create_always_fails :
    AuthLG.Login ⟨[⟨1, "u@e", "pw"⟩], [⟨7, "app", "sec"⟩], [], 2⟩ "u@e" "pw" "app" 0 60
      = (.error (.store .execFailure), ⟨[⟨1, "u@e", "pw"⟩], [⟨7, "app", "sec"⟩], [], 2⟩) := by
  rfl

/-- Claim C4: a `Login` with an unregistered email and a `Login` with a
registered email but wrong password both fail with
`ErrInvalidCredentials`, so the two cases are indistinguishable from the
returned error kind. -/
theorem claim_C4_invalid_credentials_indistinguishable
    (db : DB) (email1 email2 pw1 pw2 appCode : String) (user : User) (now ttl : Int)
    (h1 : Storage.User db email1 = .error .userNotFound)
    (h2 : Storage.User db email2 = .ok user)
    (h3 : bcryptCompareOK user.passHash pw2 = false) :
    AuthAC.Login db email1 pw1 appCode now ttl = .error .invalidCredentials ∧
    AuthAC.Login db email2 pw2 appCode now ttl = .error .invalidCredentials := by
  constructor
  · have hg : getUser db email1 = .error .invalidCredentials := by
      unfold getUser
      rw [h1]
      rfl
    simp only [AuthAC.Login, hg]
  · simp only [AuthAC.Login, getUser_ok h2, h3]
    simp

/-- Witness for C4: a store with one user; an unknown email on one side,
a wrong password for the known user on the other. -/
theorem claim_C4_witness :
    AuthAC.Login ⟨[⟨1, "u@e", "pw"⟩], [⟨7, "app", "sec"⟩], [], 2⟩ "ghost@e" "x" "app" 0 60
      = .error .invalidCredentials ∧
    AuthAC.Login ⟨[⟨1, "u@e", "pw"⟩], [⟨7, "app", "sec"⟩], [], 2⟩ "u@e" "wrong" "app" 0 60
      = .error .invalidCredentials :=
  claim_C4_invalid_credentials_indistinguishable
    ⟨[⟨1, "u@e", "pw"⟩], [⟨7, "app", "sec"⟩], [], 2⟩
    "ghost@e" "u@e" "x" "wrong" "app" ⟨1, "u@e", "pw"⟩ 0 60 rfl rfl rfl

/-- Claim C5 (code bug): `ValidateToken` on a valid unexpired token
whose (userId, appId) pair has **no** entitlement row does not fail
with AccessDenied.  Because `getUserApp` tests the wrong sentinel
(`ErrAppNotFound` instead of `ErrUserAppNotFound`), the missing-row
error propagates as the wrapped storage error, which differs from the
`ErrUserAppNotEnabled` an existing-but-disabled row produces.  (The
operation performs no writes, so the row is indeed never auto-created:
`AuthAC.ValidateToken` returns no store state.) -/
theorem claim_C5_missing_entitlement_error_mismatch :
    AuthAC.ValidateToken ⟨[⟨1, "u@e", "pw"⟩], [⟨7, "app", "sec"⟩], [], 2⟩
        ⟨1, "u@e", 100, "app", "sec"⟩ "app" 50
      = .error (.store .userAppNotFound) ∧
    AuthAC.ValidateToken ⟨[⟨1, "u@e", "pw"⟩], [⟨7, "app", "sec"⟩], [⟨1, 7, false⟩], 2⟩
        ⟨1, "u@e", 100, "app", "sec"⟩ "app" 50
      = .error .userAppNotEnabled ∧
    Err.store .userAppNotFound ≠ Err.userAppNotEnabled := by
  refine ⟨rfl, rfl, by decide⟩

/-- Claim C6 (code bug): a token issued at time 0 with ttl 60
(`exp = 60`) and validated with the correct secret passes at 59, but at
the boundary instant 60 — which the claim says must still succeed — the
program rejects it, and at 61 — where the claim says `TokenExpired` —
the error kind is `tokenInvalid`, not `tokenExpired`: golang-jwt
v5.0.0's `Parse` validates `exp` itself (success only strictly before
`exp`) and its failure is wrapped at part_007 line 43 as the local
`ErrTokenInvalid`.  The final conjunct shows the codec's own
`ErrTokenExpired` branch at line 66 is unreachable: at every single
validation instant the result is either success or `tokenInvalid`. -/
theorem claim_C6_expiry_boundary_mismatch :
    jwt.ValidateToken (jwt.NewToken ⟨1, "u@e", "pw"⟩ ⟨7, "app", "sec"⟩ 0 60) "sec" 59
      = .ok "u@e" ∧
    jwt.ValidateToken (jwt.NewToken ⟨1, "u@e", "pw"⟩ ⟨7, "app", "sec"⟩ 0 60) "sec" 60
      = .error .tokenInvalid ∧
    jwt.ValidateToken (jwt.NewToken ⟨1, "u@e", "pw"⟩ ⟨7, "app", "sec"⟩ 0 60) "sec" 61
      = .error .tokenInvalid ∧
    ∀ now : Int,
      jwt.ValidateToken (jwt.NewToken ⟨1, "u@e", "pw"⟩ ⟨7, "app", "sec"⟩ 0 60) "sec" now
        = .ok "u@e" ∨
      jwt.ValidateToken (jwt.NewToken ⟨1, "u@e", "pw"⟩ ⟨7, "app", "sec"⟩ 0 60) "sec" now
        = .error .tokenInvalid := by
  refine ⟨rfl, rfl, rfl, ?_⟩
  intro now
  by_cases h : now < (60 : Int)
  · left
    have h2 : ¬ now > (60 : Int) := by omega
    simp [jwt.ValidateToken, jwt.NewToken, h, h2]
  · right
    simp [jwt.ValidateToken, jwt.NewToken, h]

/-- Claim C7: for `n` login attempts with one email within one throttle
window under configured limit `L ≥ 0` with `L < n`: exactly `L` attempts
reach the inner Login handler, `n − L` are throttled, every attempt —
throttled ones included — incremented the counter (it ends at `n`), each
attempt whose incremented count exceeds the limit is rejected without
the handler running, and with no configured backend all `n` attempts
pass through untouched. -/
theorem claim_C7_login_throttle (limit : Int) (email : String) (n : Nat)
    (hL : 0 ≤ limit) (hE : ¬ email = "") (hn : limit < (n : Int)) :
    (ratelimit.runLoginAttempts true limit email n).1 = limit.toNat ∧
    (ratelimit.runLoginAttempts true limit email n).2.1 = n - limit.toNat ∧
    ratelimit.getCounter (ratelimit.runLoginAttempts true limit email n).2.2.counters
      (ratelimit.redisKeyLogin ++ email) = (n : Int) ∧
    ratelimit.runLoginAttempts false limit email n = (n, 0, ⟨[]⟩) ∧
    (∀ s : ratelimit.RLState,
       limit < (s.incr (ratelimit.redisKeyLogin ++ email)).1 →
       (ratelimit.LoginRateLimiter.unary ⟨true, limit⟩ s
          ratelimit.grpcMethodAuthLogin email).1 = .throttled) := by
  obtain ⟨h1, h2, h3⟩ := runLoginAttempts_loginSpec limit hL email hE n
  have hmin : min n limit.toNat = limit.toNat := by omega
  refine ⟨by rw [h1, hmin], by rw [h2, hmin], h3,
    runLoginAttempts_noStore limit email n, ?_⟩
  intro s hs
  rw [unary_login_step limit s email hE]
  have hs2 : ratelimit.getCounter s.counters (ratelimit.redisKeyLogin ++ email) + 1
      > limit := hs
  rw [if_pos hs2]

/-- Witness for C7: the repository's own scenario — limit 5, ten
attempts for one email: five proceed, five are throttled, the counter
ends at ten; and a state already at the limit throttles the next
attempt. -/
theorem claim_C7_witness :
    (ratelimit.runLoginAttempts true 5 "u@e" 10).1 = 5 ∧
    (ratelimit.runLoginAttempts true 5 "u@e" 10).2.1 = 5 ∧
    ratelimit.getCounter (ratelimit.runLoginAttempts true 5 "u@e" 10).2.2.counters
      (ratelimit.redisKeyLogin ++ "u@e") = 10 ∧
    ratelimit.runLoginAttempts false 5 "u@e" 10 = (10, 0, ⟨[]⟩) ∧
    (ratelimit.LoginRateLimiter.unary ⟨true, 5⟩ ⟨[(ratelimit.redisKeyLogin ++ "u@e", 5)]⟩
        ratelimit.grpcMethodAuthLogin "u@e").1 = .throttled := by
  have h := claim_C7_login_throttle 5 "u@e" 10 (by decide) (by decide) (by decide)
  exact ⟨h.1, h.2.1, h.2.2.1, h.2.2.2.1,
    h.2.2.2.2 ⟨[(ratelimit.redisKeyLogin ++ "u@e", 5)]⟩ (by decide)⟩

/-- Claim C8 (code bug): `AccessControl` on a resolved user and app with
**no** entitlement row takes the create branch, but the creation always
fails because `Storage.SaveUserApp` executes the users-table insert
statement with the wrong arguments — so revoke on a never-granted pair
fails with a wrapped storage error instead of creating a disabled row.
The update branch for an existing row behaves as claimed (second
conjunct: the row is updated and the app code is returned). -/
theorem claim_C8_accesscontrol_create_path_fails :
    AuthAC.AccessControl ⟨[⟨1, "u@e", "pw"⟩], [⟨7, "app", "sec"⟩], [], 2⟩ "u@e" "app" false
      = (.error (.store .execFailure), ⟨[⟨1, "u@e", "pw"⟩], [⟨7, "app", "sec"⟩], [], 2⟩) ∧
    AuthAC.AccessControl ⟨[⟨1, "u@e", "pw"⟩], [⟨7, "app", "sec"⟩], [⟨1, 7, true⟩], 2⟩
        "u@e" "app" false
      = (.ok "app", ⟨[⟨1, "u@e", "pw"⟩], [⟨7, "app", "sec"⟩], [⟨1, 7, false⟩], 2⟩) :=
  ⟨rfl, rfl⟩

/-- Claim C9: `Register` on an email not yet present succeeds and
returns the store's fresh id (fresh by the id-counter hypothesis), and
appends exactly one user with the hashed password; a second `Register`
with the same email fails with the store's uniqueness-violation error
`ErrUserExists` (CredentialConflict) and leaves the store — hence the
existing user — unchanged. -/
theorem claim_C9_register_unique_email (db : DB) (email pw pw2 : String)
    (hF : findUserRow db.users email = none)
    (hIds : ∀ u ∈ db.users, u.id ≠ db.nextUserID) :
    (AuthAC.RegisterNewUser db email pw).1 = .ok db.nextUserID ∧
    (∀ u ∈ db.users, u.id ≠ db.nextUserID) ∧
    (AuthAC.RegisterNewUser db email pw).2.users
      = db.users ++ [⟨db.nextUserID, email, bcryptGenerateFromPassword pw⟩] ∧
    (AuthAC.RegisterNewUser (AuthAC.RegisterNewUser db email pw).2 email pw2).1
      = .error (.store .userExists) ∧
    (AuthAC.RegisterNewUser (AuthAC.RegisterNewUser db email pw).2 email pw2).2
      = (AuthAC.RegisterNewUser db email pw).2 := by
  have h1 : AuthAC.RegisterNewUser db email pw
      = (.ok db.nextUserID,
         { db with
           users := db.users ++ [⟨db.nextUserID, email, pw⟩],
           nextUserID := db.nextUserID + 1 }) := by
    simp only [AuthAC.RegisterNewUser, Storage.SaveUser, Storage.execUserInsert,
      bcryptGenerateFromPassword, hF]
  have hfind2 : findUserRow (db.users ++ [⟨db.nextUserID, email, pw⟩]) email
      = some ⟨db.nextUserID, email, pw⟩ := by
    rw [findUserRow_append_of_none hF]
    simp
  have h2 : AuthAC.RegisterNewUser
      ({ db with
         users := db.users ++ [⟨db.nextUserID, email, pw⟩],
         nextUserID := db.nextUserID + 1 }) email pw2
      = (.error (.store .userExists),
         { db with
           users := db.users ++ [⟨db.nextUserID, email, pw⟩],
           nextUserID := db.nextUserID + 1 }) := by
    simp only [AuthAC.RegisterNewUser, Storage.SaveUser, Storage.execUserInsert,
      bcryptGenerateFromPassword]
    rw [hfind2]
  exact ⟨by simp [h1], hIds, by simp [h1, bcryptGenerateFromPassword],
    by simp [h1, h2], by simp [h1, h2]⟩

/-- Witness for C9: one existing user (id 1), next id 2, a fresh email. -/
theorem claim_C9_witness :
    (AuthAC.RegisterNewUser ⟨[⟨1, "u@e", "pw"⟩], [], [], 2⟩ "new@e" "secret1").1 = .ok 2 ∧
    (∀ u ∈ ([⟨1, "u@e", "pw"⟩] : List User), u.id ≠ 2) ∧
    (AuthAC.RegisterNewUser ⟨[⟨1, "u@e", "pw"⟩], [], [], 2⟩ "new@e" "secret1").2.users
      = [⟨1, "u@e", "pw"⟩, ⟨2, "new@e", "secret1"⟩] ∧
    (AuthAC.RegisterNewUser
        (AuthAC.RegisterNewUser ⟨[⟨1, "u@e", "pw"⟩], [], [], 2⟩ "new@e" "secret1").2
        "new@e" "other").1
      = .error (.store .userExists) ∧
    (AuthAC.RegisterNewUser
        (AuthAC.RegisterNewUser ⟨[⟨1, "u@e", "pw"⟩], [], [], 2⟩ "new@e" "secret1").2
        "new@e" "other").2
      = (AuthAC.RegisterNewUser ⟨[⟨1, "u@e", "pw"⟩], [], [], 2⟩ "new@e" "secret1").2 :=
  claim_C9_register_unique_email ⟨[⟨1, "u@e", "pw"⟩], [], [], 2⟩ "new@e" "secret1" "other"
    rfl (by decide)

/-- Claim C10: for every input with non-empty email and appCode, the
handlers `AllowAccess`, `GrantAccess` and `RevokeAccess` return a
success response carrying whatever string `AccessControl` returned —
no gRPC error status is produced even when `AccessControl` fails, and
on failure the response carries the empty app code. -/
theorem claim_C10_access_handlers_discard_errors (db : DB) (email appCode : String)
    (hE : ¬ email = "") (hA : ¬ appCode = "") :
    (serverAPI.AllowAccess db email appCode).1
      = .ok ⟨serverAPI.stringOfResult (AuthAC.AccessControl db email appCode true).1⟩ ∧
    (serverAPI.GrantAccess db email appCode).1
      = .ok ⟨serverAPI.stringOfResult (AuthAC.AccessControl db email appCode true).1⟩ ∧
    (serverAPI.RevokeAccess db email appCode).1
      = .ok ⟨serverAPI.stringOfResult (AuthAC.AccessControl db email appCode false).1⟩ ∧
    (∀ e, (AuthAC.AccessControl db email appCode true).1 = .error e →
       (serverAPI.AllowAccess db email appCode).1 = .ok ⟨""⟩ ∧
       (serverAPI.GrantAccess db email appCode).1 = .ok ⟨""⟩) ∧
    (∀ e, (AuthAC.AccessControl db email appCode false).1 = .error e →
       (serverAPI.RevokeAccess db email appCode).1 = .ok ⟨""⟩) := by
  simp only [serverAPI.AllowAccess, serverAPI.GrantAccess, serverAPI.RevokeAccess,
    if_neg hE, if_neg hA]
  refine ⟨trivial, trivial, trivial, ?_, ?_⟩
  · intro e he
    rw [he]
    exact ⟨rfl, rfl⟩
  · intro e he
    rw [he]
    rfl

/-- Witness for C10: an empty store, so `AccessControl` fails with
`ErrInvalidCredentials`; all three handlers still answer with a success
response carrying the empty app code. -/
theorem claim_C10_witness :
    (serverAPI.AllowAccess ⟨[], [], [], 1⟩ "u@e" "app").1 = .ok ⟨""⟩ ∧
    (serverAPI.GrantAccess ⟨[], [], [], 1⟩ "u@e" "app").1 = .ok ⟨""⟩ ∧
    (serverAPI.RevokeAccess ⟨[], [], [], 1⟩ "u@e" "app").1 = .ok ⟨""⟩ := by
  have h := claim_C10_access_handlers_discard_errors ⟨[], [], [], 1⟩ "u@e" "app"
    (by decide) (by decide)
  exact ⟨(h.2.2.2.1 .invalidCredentials rfl).1, (h.2.2.2.1 .invalidCredentials rfl).2,
    h.2.2.2.2 .invalidCredentials rfl⟩

end SSO
